import Mathlib

/-!
Shallow embedding of `hebbian-ai.py`: a single-agent foraging environment on a
toroidal grid.  The world is a `WORLD_SIZE × WORLD_SIZE` array of cells holding
`0` (empty) or `1` (reward); the agent holds integer coordinates kept in range
by reduction modulo `WORLD_SIZE`; each tick computes a vision window, resolves
the reward at the agent's cell (collect + reject-resample respawn), queries the
policy, and applies the chosen move.  Randomness (`random.randint` draws) is
made explicit as lists of drawn cells; the unbounded `while True` respawn loop
is embedded as a recursion over the (finite) draw list returning `none` when
the draws are exhausted without success, so `none` for every draw list models
divergence of the source loop.
-/

namespace Hebbian

/-- Game parameter `WORLD_SIZE = 100` from the source. -/
def WORLD_SIZE : Nat := 100

/-- Game parameter `VISION_SIZE = 7` from the source. -/
def VISION_SIZE : Nat := 7

/-- Source: `BOT_VISION_RANGE = VISION_SIZE // 2`. -/
def BOT_VISION_RANGE : Nat := VISION_SIZE / 2

/-- Game parameter `REWARD_AMOUNT = 400` from the source. -/
def REWARD_AMOUNT : Nat := 400

/-- The world grid: source `world = np.zeros((WORLD_SIZE, WORLD_SIZE))`, a
square array indexed `world[y, x]`, each cell holding `0` or `1`.  We model it
as a total function on index pairs `(y, x)`. -/
abbrev World (n : Nat) := Fin n × Fin n → Nat

/-- Reduce an integer coordinate modulo the grid size and package it as an
index, mirroring Python's `% WORLD_SIZE` (nonnegative remainder for a positive
modulus, exactly `Int.emod`). -/
def toIdx (n : Nat) [NeZero n] (z : Int) : Fin n :=
  ⟨(z % (n : Int)).toNat, by
    have hn : (0 : Int) < (n : Int) := by
      exact_mod_cast Nat.pos_of_ne_zero (NeZero.ne n)
    have h₀ : (0 : Int) ≤ z % (n : Int) := Int.emod_nonneg z (by omega)
    have h₁ : z % (n : Int) < (n : Int) := Int.emod_lt_of_pos z hn
    omega⟩

/-- Toroidal lookup `world[y % WORLD_SIZE, x % WORLD_SIZE]` as used in the
vision-extraction loop (source lines 52–54). -/
def read {n : Nat} [NeZero n] (w : World n) (y x : Int) : Nat :=
  w (toIdx n y, toIdx n x)

/-- Number of reward cells: how many cells of the grid hold the value `1`
(source: `np.argwhere(world == 1)` carries exactly these cells). -/
def rewardCount {n : Nat} (w : World n) : Nat :=
  ∑ p : Fin n × Fin n, if w p = 1 then 1 else 0

/-- Reward-scatter loop at startup (source lines 27–30): for each random draw
`(y, x)` set `world[y, x] = 1`, starting from the all-zero grid. -/
def initWorld (n : Nat) (draws : List (Fin n × Fin n)) : World n :=
  draws.foldl (fun w p => Function.update w p 1) (fun _ => 0)

/-- The reject-and-resample respawn loop (source lines 65–70): draw random
cells until one holds `0`, set it to `1` and stop, returning the new grid and
the chosen cell.  The source loop is `while True` over unbounded random draws;
here the draw sequence is an explicit list and `none` means the draws ran out
without finding an empty cell — `none` for every draw list is how the embedding
expresses that the source loop never terminates. -/
def respawnLoop {n : Nat} (w : World n) :
    List (Fin n × Fin n) → Option (World n × (Fin n × Fin n))
  | [] => none
  | p :: rest =>
      if w p = 0 then some (Function.update w p 1, p) else respawnLoop w rest

/-- Reward resolution at the agent's cell (source lines 58–72): read the cell;
if it holds `1`, clear it and run the respawn loop; otherwise the reward signal
is `0` and the grid is untouched.  Returns the new grid, the reward signal, and
the respawn cell (when a respawn happened); `none` propagates respawn-loop
exhaustion. -/
def collectAndRespawn {n : Nat} (w : World n) (pos : Fin n × Fin n)
    (draws : List (Fin n × Fin n)) :
    Option (World n × Nat × Option (Fin n × Fin n)) :=
  let reward := w pos
  if reward = 1 then
    let w1 := Function.update w pos 0
    match respawnLoop w1 draws with
    | some (w2, q) => some (w2, reward, some q)
    | none => none
  else
    some (w, 0, none)

/-- Vision extraction (source lines 49–54): a `ws × ws` grid whose cell
`(i, j)` is the toroidal read of the world at
`(bot_y - ws/2 + i, bot_x - ws/2 + j)`. -/
def visionGrid {n : Nat} [NeZero n] (w : World n) (botY botX : Int)
    (ws : Nat) : List (List Nat) :=
  (List.range ws).map fun (i : Nat) =>
    (List.range ws).map fun (j : Nat) =>
      read w (botY - (ws / 2 : Nat) + (i : Int)) (botX - (ws / 2 : Nat) + (j : Int))

/-- Movement application (source lines 78–85): the four recognized actions
move one cell up, down, left or right with wraparound; any other value falls
through the `if`/`elif` chain and leaves the position untouched.  The pair is
`(bot_x, bot_y)`. -/
def applyMove (n : Nat) (movement : Int) (p : Int × Int) : Int × Int :=
  if movement = 0 then (p.1, (p.2 - 1) % (n : Int))
  else if movement = 1 then (p.1, (p.2 + 1) % (n : Int))
  else if movement = 2 then ((p.1 - 1) % (n : Int), p.2)
  else if movement = 3 then ((p.1 + 1) % (n : Int), p.2)
  else p

/-- Everything one pass of the game loop produces. -/
structure TickResult (n : Nat) where
  world : World n
  botX : Int
  botY : Int
  visionFlat : List Nat
  reward : Nat
  movement : Int
  deriving DecidableEq

/-- One pass of the game loop body (source lines 48–85), rendering omitted:
compute the vision window at the current position, flatten it, resolve the
reward at the current position (collect + respawn), query the policy with the
flattened observation and the reward signal, and finally apply the chosen
move.  `policy` stands for `ai_bot.choose_action`. -/
def tick {n : Nat} [NeZero n] (policy : List Nat → Nat → Int) (ws : Nat)
    (w : World n) (botX botY : Int) (draws : List (Fin n × Fin n)) :
    Option (TickResult n) :=
  let vision := visionGrid w botY botX ws
  let visionFlat := vision.flatten
  match collectAndRespawn w (toIdx n botY, toIdx n botX) draws with
  | none => none
  | some (w', reward, _) =>
      let movement := policy visionFlat reward
      let p' := applyMove n movement (botX, botY)
      some ⟨w', p'.1, p'.2, visionFlat, reward, movement⟩

/-- Iterate the game loop: one draw list per tick. -/
def runTicks {n : Nat} [NeZero n] (policy : List Nat → Nat → Int) (ws : Nat)
    (w : World n) (botX botY : Int) :
    List (List (Fin n × Fin n)) → Option (TickResult n)
  | [] => some ⟨w, botX, botY, [], 0, 0⟩
  | d :: rest =>
      match tick policy ws w botX botY d with
      | none => none
      | some r => runTicks policy ws r.world r.botX r.botY rest

/-! ### Example inputs used by counterexamples and witnesses -/

/-- A 2 × 2 world holding a single reward at `(0, 0)`. -/
def exWorld2 : World 2 := fun p => if p = (0, 0) then 1 else 0

/-- A 1 × 1 world whose only cell holds a reward: no empty cell exists. -/
def fullWorld1 : World 1 := fun _ => 1

/-- The tick result produced by the always-RIGHT policy on `exWorld2` with the
agent standing on the empty cell `(1, 1)`. -/
def tickWitnessRes : TickResult 2 := ⟨exWorld2, 0, 1, [0], 0, 3⟩

/-- The tick result produced by the always-RIGHT policy on `exWorld2` with the
agent standing on the reward cell `(0, 0)` and respawn draw `(1, 1)`. -/
def tickWitnessRes2 : TickResult 2 :=
  ⟨Function.update (Function.update exWorld2 (0, 0) 0) (1, 1) 1, 1, 0, [1], 1, 3⟩

/-! ### Counting helper lemmas -/

/-- Writing `v` into cell `p` trades the old cell's contribution to the reward
count for the new value's contribution. -/
lemma rewardCount_update {n : Nat} (w : World n) (p : Fin n × Fin n) (v : Nat) :
    rewardCount (Function.update w p v) + (if w p = 1 then 1 else 0)
      = rewardCount w + (if v = 1 then 1 else 0) := by
  classical
  have hfun : (fun q => if Function.update w p v q = 1 then (1 : Nat) else 0)
      = Function.update (fun q => if w q = 1 then (1 : Nat) else 0) p
        (if v = 1 then 1 else 0) := by
    funext q
    by_cases hq : q = p
    · subst hq; simp
    · simp [Function.update_noteq hq]
  have hsplit : rewardCount w
      = (if w p = 1 then 1 else 0)
        + ∑ q ∈ Finset.univ.erase p, (if w q = 1 then (1 : Nat) else 0) :=
    (Finset.add_sum_erase _ _ (Finset.mem_univ p)).symm
  unfold rewardCount
  rw [hfun, Finset.sum_update_of_mem (Finset.mem_univ p), ← Finset.erase_eq]
  rw [rewardCount] at hsplit
  rw [hsplit]
  ring

lemma rewardCount_zero {n : Nat} : rewardCount (n := n) (fun _ => 0) = 0 := by
  simp [rewardCount]

/-! ### Respawn-loop characterization -/

/-- A successful respawn chose a cell that was empty and set exactly it
to `1`. -/
lemma respawnLoop_eq_some {n : Nat} {w w' : World n} {q : Fin n × Fin n} :
    ∀ {draws : List (Fin n × Fin n)},
      respawnLoop w draws = some (w', q) →
        w q = 0 ∧ w' = Function.update w q 1 ∧ q ∈ draws := by
  intro draws
  induction draws with
  | nil => intro h; simp [respawnLoop] at h
  | cons p rest ih =>
      intro h
      by_cases hp : w p = 0
      · simp only [respawnLoop, if_pos hp, Option.some.injEq, Prod.mk.injEq] at h
        obtain ⟨hw, hq⟩ := h
        subst hq
        exact ⟨hp, hw.symm, List.mem_cons_self _ _⟩
      · simp only [respawnLoop, if_neg hp] at h
        obtain ⟨h0, h1, h2⟩ := ih h
        exact ⟨h0, h1, List.mem_cons_of_mem _ h2⟩

/-- The respawn loop succeeds exactly when the draw sequence contains an empty
cell. -/
lemma respawnLoop_isSome_iff {n : Nat} (w : World n)
    (draws : List (Fin n × Fin n)) :
    (respawnLoop w draws).isSome ↔ ∃ p ∈ draws, w p = 0 := by
  induction draws with
  | nil => simp [respawnLoop]
  | cons p rest ih =>
      by_cases hp : w p = 0
      · simp [respawnLoop, hp]
      · simp [respawnLoop, hp, ih, hp]

/-! ### Collect-and-respawn characterization -/

/-- With no reward on the agent's cell, the block signals `0` and returns the
grid untouched. -/
lemma collectAndRespawn_of_ne {n : Nat} (w : World n) (pos : Fin n × Fin n)
    (draws : List (Fin n × Fin n)) (h : w pos ≠ 1) :
    collectAndRespawn w pos draws = some (w, 0, none) := by
  simp [collectAndRespawn, h]

/-- A successful collection clears the agent's cell and then sets one cell
that was empty after the clear. -/
lemma collectAndRespawn_of_eq {n : Nat} {w w' : World n}
    {pos : Fin n × Fin n} {draws : List (Fin n × Fin n)} {r : Nat}
    {qo : Option (Fin n × Fin n)} (hpos : w pos = 1)
    (h : collectAndRespawn w pos draws = some (w', r, qo)) :
    r = 1 ∧ ∃ q, qo = some q ∧ Function.update w pos 0 q = 0 ∧
      w' = Function.update (Function.update w pos 0) q 1 ∧ q ∈ draws := by
  simp only [collectAndRespawn, hpos, if_pos, reduceIte] at h
  cases hresp : respawnLoop (Function.update w pos 0) draws with
  | none => rw [hresp] at h; simp at h
  | some res =>
      obtain ⟨w2, q⟩ := res
      rw [hresp] at h
      simp only [Option.some.injEq, Prod.mk.injEq] at h
      obtain ⟨hw, hr, hq⟩ := h
      obtain ⟨hempty, hupd, hmem⟩ := respawnLoop_eq_some hresp
      subst hw hq
      refine ⟨hr.symm, q, rfl, hempty, hupd, hmem⟩

/-- The reward signal is exactly the indicator of a reward on the agent's
cell. -/
lemma collectAndRespawn_reward {n : Nat} {w w' : World n}
    {pos : Fin n × Fin n} {draws : List (Fin n × Fin n)} {r : Nat}
    {qo : Option (Fin n × Fin n)}
    (h : collectAndRespawn w pos draws = some (w', r, qo)) :
    r = if w pos = 1 then 1 else 0 := by
  by_cases hpos : w pos = 1
  · rw [if_pos hpos]; exact (collectAndRespawn_of_eq hpos h).1
  · rw [collectAndRespawn_of_ne w pos draws hpos] at h
    simp only [Option.some.injEq, Prod.mk.injEq] at h
    rw [if_neg hpos]; exact h.2.1.symm

/-- Reward-count conservation for one collect-and-respawn pass that runs to
completion. -/
lemma collectAndRespawn_conserves {n : Nat} {w w' : World n}
    {pos : Fin n × Fin n} {draws : List (Fin n × Fin n)} {r : Nat}
    {qo : Option (Fin n × Fin n)}
    (h : collectAndRespawn w pos draws = some (w', r, qo)) :
    rewardCount w' = rewardCount w := by
  by_cases hpos : w pos = 1
  · obtain ⟨-, q, -, hempty, hupd, -⟩ := collectAndRespawn_of_eq hpos h
    have h1 := rewardCount_update w pos 0
    have h2 := rewardCount_update (Function.update w pos 0) q 1
    rw [hpos] at h1
    rw [hempty] at h2
    rw [hupd]
    omega
  · rw [collectAndRespawn_of_ne w pos draws hpos] at h
    simp only [Option.some.injEq, Prod.mk.injEq] at h
    rw [← h.1]

/-- One full tick preserves the reward count. -/
lemma tick_conserves {n : Nat} [NeZero n] {policy : List Nat → Nat → Int}
    {ws : Nat} {w : World n} {botX botY : Int}
    {draws : List (Fin n × Fin n)} {res : TickResult n}
    (h : tick policy ws w botX botY draws = some res) :
    rewardCount res.world = rewardCount w := by
  unfold tick at h
  cases hc : collectAndRespawn w (toIdx n botY, toIdx n botX) draws with
  | none => rw [hc] at h; simp at h
  | some out =>
      obtain ⟨w', r, qo⟩ := out
      rw [hc] at h
      simp only [Option.some.injEq] at h
      have := collectAndRespawn_conserves hc
      rw [← h]
      exact this

/-- Any completed run of ticks preserves the reward count. -/
lemma runTicks_conserves {n : Nat} [NeZero n] {policy : List Nat → Nat → Int}
    {ws : Nat} :
    ∀ {ds : List (List (Fin n × Fin n))} {w : World n} {botX botY : Int}
      {res : TickResult n},
      runTicks policy ws w botX botY ds = some res →
        rewardCount res.world = rewardCount w := by
  intro ds
  induction ds with
  | nil =>
      intro w botX botY res h
      simp only [runTicks, Option.some.injEq] at h
      rw [← h]
  | cons d rest ih =>
      intro w botX botY res h
      unfold runTicks at h
      cases ht : tick policy ws w botX botY d with
      | none => rw [ht] at h; simp at h
      | some r1 =>
          rw [ht] at h
          have h1 := tick_conserves ht
          have h2 := ih h
          omega

/-! ### Initialization lemmas -/

/-- The scatter loop never clears a cell: a cell already holding `1` still
holds `1` after any further draws. -/
lemma foldl_update_keeps {n : Nat} (p : Fin n × Fin n) :
    ∀ (rest : List (Fin n × Fin n)) (w : World n), w p = 1 →
      rest.foldl (fun w q => Function.update w q 1) w p = 1 := by
  intro rest
  induction rest with
  | nil => intro w h; exact h
  | cons q rest ih =>
      intro w h
      apply ih
      by_cases hq : p = q
      · subst hq; simp
      · simp only [Function.update_noteq hq]; exact h

/-- Every drawn cell holds a reward once the scatter loop is over. -/
lemma foldl_update_mem {n : Nat} (p : Fin n × Fin n) :
    ∀ (draws : List (Fin n × Fin n)) (w : World n), p ∈ draws →
      draws.foldl (fun w q => Function.update w q 1) w p = 1 := by
  intro draws
  induction draws with
  | nil => intro w h; simp at h
  | cons q rest ih =>
      intro w h
      rcases List.mem_cons.mp h with hq | hmem
      · subst hq
        exact foldl_update_keeps p rest _ (by simp)
      · exact ih _ hmem

/-- Each pass of the scatter loop raises the reward count by at most one. -/
lemma foldl_update_count_le {n : Nat} :
    ∀ (draws : List (Fin n × Fin n)) (w : World n),
      rewardCount (draws.foldl (fun w q => Function.update w q 1) w)
        ≤ rewardCount w + draws.length := by
  intro draws
  induction draws with
  | nil => intro w; simp
  | cons q rest ih =>
      intro w
      have h1 := rewardCount_update w q 1
      have h2 := ih (Function.update w q 1)
      have hb : (if w q = 1 then (1 : Nat) else 0) ≤ 1 := by split <;> simp
      simp only [reduceIte] at h1
      simp only [List.foldl_cons, List.length_cons]
      omega

/-! ### Vision-grid and flattening lemmas -/

/-- Cell `(i, j)` of the vision grid is the toroidal read the source loop
assigns to it. -/
lemma visionGrid_getD {n : Nat} [NeZero n] (w : World n) (botY botX : Int)
    (ws i j : Nat) (hi : i < ws) (hj : j < ws) :
    ((visionGrid w botY botX ws).getD i []).getD j 0
      = read w (botY - (ws / 2 : Nat) + i) (botX - (ws / 2 : Nat) + j) := by
  unfold visionGrid
  rw [List.getD_eq_getElem?_getD, List.getD_eq_getElem?_getD,
    List.getElem?_map, List.getElem?_range hi]
  simp only [Option.map_some', Option.getD_some]
  rw [List.getElem?_map, List.getElem?_range hj]
  simp only [Option.map_some', Option.getD_some]

/-- Every row of the vision grid has length `ws`. -/
lemma visionGrid_row_length {n : Nat} [NeZero n] (w : World n)
    (botY botX : Int) (ws : Nat) :
    ∀ row ∈ visionGrid w botY botX ws, row.length = ws := by
  intro row hrow
  unfold visionGrid at hrow
  obtain ⟨i, -, hrow⟩ := List.mem_map.mp hrow
  rw [← hrow]
  simp

/-- The vision grid has `ws` rows. -/
lemma visionGrid_length {n : Nat} [NeZero n] (w : World n)
    (botY botX : Int) (ws : Nat) :
    (visionGrid w botY botX ws).length = ws := by
  unfold visionGrid
  simp

/-- Flattening a list of rows of uniform length `ws` is row-major: entry
`i * ws + j` of the flattening is entry `j` of row `i`. -/
lemma flatten_getD_row_major {ws : Nat} :
    ∀ (l : List (List Nat)) (i j : Nat), (∀ r ∈ l, r.length = ws) →
      j < ws → i < l.length →
      l.flatten.getD (i * ws + j) 0 = (l.getD i []).getD j 0 := by
  intro l
  induction l with
  | nil => intro i j _ _ hi; simp at hi
  | cons r rest ih =>
      intro i j hrow hj hi
      have hr : r.length = ws := hrow r (List.mem_cons_self _ _)
      cases i with
      | zero =>
          simp only [Nat.zero_mul, Nat.zero_add, List.flatten_cons,
            List.getD_cons_zero]
          rw [List.getD_eq_getElem?_getD, List.getElem?_append_left (by omega),
            ← List.getD_eq_getElem?_getD]
      | succ i =>
          have harith : (i + 1) * ws + j = r.length + (i * ws + j) := by
            rw [hr]; ring
          simp only [List.flatten_cons, harith, List.getD_cons_succ]
          rw [List.getD_eq_getElem?_getD, List.getElem?_append_right (by omega)]
          rw [← List.getD_eq_getElem?_getD]
          have : r.length + (i * ws + j) - r.length = i * ws + j := by omega
          rw [this]
          exact ih i j (fun s hs => hrow s (List.mem_cons_of_mem _ hs)) hj
            (Nat.lt_of_succ_lt_succ hi)

/-- The flattening of a list of rows of uniform length `ws` has
`count · ws` entries. -/
lemma flatten_length_uniform {ws : Nat} :
    ∀ (l : List (List Nat)), (∀ r ∈ l, r.length = ws) →
      l.flatten.length = l.length * ws := by
  intro l
  induction l with
  | nil => intro _; simp
  | cons r rest ih =>
      intro hrow
      have hr : r.length = ws := hrow r (List.mem_cons_self _ _)
      simp only [List.flatten_cons, List.length_append, List.length_cons]
      rw [hr, ih (fun s hs => hrow s (List.mem_cons_of_mem _ hs))]
      ring

/-- Wrap-around reduction ignores whole multiples of the grid size. -/
lemma toIdx_add_mul (n : Nat) [NeZero n] (z k : Int) :
    toIdx n (z + k * (n : Int)) = toIdx n z := by
  apply Fin.ext
  show ((z + k * (n : Int)) % (n : Int)).toNat = (z % (n : Int)).toNat
  rw [Int.add_mul_emod_self]

/-! ### Claim theorems -/

/-- C7: for every world state, all integer coordinates `x`, `y`, and every
integer `k`, reading the cell at `(x + k·WORLD_SIZE, y)` returns the same
state as reading at `(x, y)`, and symmetrically for the `y` coordinate. -/
theorem C7_toroidal_periodicity (n : Nat) [NeZero n] (w : World n)
    (x y k : Int) :
    read w y (x + k * (n : Int)) = read w y x
      ∧ read w (y + k * (n : Int)) x = read w y x := by
  unfold read
  rw [toIdx_add_mul, toIdx_add_mul]
  exact ⟨rfl, rfl⟩

/-- Witness for C7 at `n = 100`, `x = 3`, `y = 5`, `k = 2` on the empty
world. -/
theorem C7_toroidal_periodicity_witness :
    read (n := 100) (fun _ => 0) 5 (3 + 2 * (100 : Int))
        = read (n := 100) (fun _ => 0) 5 3
      ∧ read (n := 100) (fun _ => 0) (5 + 2 * (100 : Int)) 3
        = read (n := 100) (fun _ => 0) 5 3 :=
  C7_toroidal_periodicity 100 (fun _ => 0) 3 5 2

/-- C6: for every world snapshot, agent position, and odd `window_size`, cell
`(i, j)` of the extracted window equals the world cell at toroidally-reduced
coordinates `(center.y - half + i, center.x - half + j)` with
`half = window_size // 2`, and the center cell `extract[half][half]` equals
the world cell at the agent's own position.  Extraction is a pure function of
the world snapshot, so it mutates nothing. -/
theorem C6_vision_extraction (n ws : Nat) [NeZero n] (w : World n)
    (botY botX : Int) (i j : Nat) (hodd : ws % 2 = 1) (hi : i < ws)
    (hj : j < ws) :
    ((visionGrid w botY botX ws).getD i []).getD j 0
        = read w (botY - (ws / 2 : Nat) + i) (botX - (ws / 2 : Nat) + j)
      ∧ ((visionGrid w botY botX ws).getD (ws / 2) []).getD (ws / 2) 0
        = read w botY botX := by
  have hhalf : ws / 2 < ws := by omega
  refine ⟨visionGrid_getD w botY botX ws i j hi hj, ?_⟩
  rw [visionGrid_getD w botY botX ws _ _ hhalf hhalf]
  have hy : botY - (ws / 2 : Nat) + ((ws / 2 : Nat) : Int) = botY := by ring
  have hx : botX - (ws / 2 : Nat) + ((ws / 2 : Nat) : Int) = botX := by ring
  rw [hy, hx]

/-- Witness for C6 at `n = 3`, `window_size = 3`, the all-reward world, the
agent at `(1, 1)`, and window cell `(1, 1)` (the center). -/
theorem C6_vision_extraction_witness :
    ((visionGrid (n := 3) (fun _ => 1) 1 1 3).getD 1 []).getD 1 0
        = read (n := 3) (fun _ => 1) 1 1 :=
  (C6_vision_extraction 3 3 (fun _ => 1) 1 1 1 1 (by decide) (by decide)
    (by decide)).2

/-- C8: for every tick in which the agent's current cell holds no reward, the
reward signal is `0` and the world grid is left entirely unchanged by the
reward-resolution step. -/
theorem C8_no_collection_frame {n : Nat} [NeZero n]
    (policy : List Nat → Nat → Int) (ws : Nat) (w : World n)
    (botX botY : Int) (draws : List (Fin n × Fin n)) (res : TickResult n)
    (hempty : w (toIdx n botY, toIdx n botX) = 0)
    (h : tick policy ws w botX botY draws = some res) :
    res.reward = 0 ∧ res.world = w := by
  unfold tick at h
  rw [collectAndRespawn_of_ne w _ draws (by omega)] at h
  simp only [Option.some.injEq] at h
  rw [← h]
  exact ⟨rfl, rfl⟩

/-- Witness for C8 at `n = 2` on the world whose single reward sits at
`(0, 0)` while the agent stands at `(1, 1)`. -/
theorem C8_no_collection_frame_witness :
    (tickWitnessRes).reward = 0 ∧ (tickWitnessRes).world = exWorld2 :=
  C8_no_collection_frame (fun _ _ => 3) 1 exWorld2 1 1 [] tickWitnessRes
    (by decide) (by decide)

/-- C9: initialization sets each drawn cell to reward, so after the scatter
loop every drawn cell holds a reward and the total number of reward cells is
at most `reward_count` (duplicate draws collapse). -/
theorem C9_init_under_placement (n : Nat) (draws : List (Fin n × Fin n)) :
    (∀ p ∈ draws, initWorld n draws p = 1)
      ∧ rewardCount (initWorld n draws) ≤ draws.length := by
  constructor
  · intro p hp
    exact foldl_update_mem p draws _ hp
  · have h := foldl_update_count_le draws (fun _ => 0)
    rw [rewardCount_zero] at h
    unfold initWorld
    omega

/-- Witness for C9 at `n = 2` with the duplicated draw list
`[(0,0), (0,0)]`: the drawn cell holds a reward and the final count is
strictly below the draw count. -/
theorem C9_init_under_placement_witness :
    initWorld 2 [(0, 0), (0, 0)] (0, 0) = 1
      ∧ rewardCount (initWorld 2 [(0, 0), (0, 0)]) ≤ 2 :=
  ⟨(C9_init_under_placement 2 [(0, 0), (0, 0)]).1 (0, 0) (by decide),
    (C9_init_under_placement 2 [(0, 0), (0, 0)]).2⟩

/-- C10: the flattened observation handed to the policy has exactly
`window_size × window_size` entries and is the row-major flattening of the
2-D vision window: entry `i·window_size + j` equals window cell `(i, j)`,
which in turn equals the state of the corresponding world cell. -/
theorem C10_flatten_row_major (n ws : Nat) [NeZero n] (w : World n)
    (botY botX : Int) (i j : Nat) (hi : i < ws) (hj : j < ws) :
    (visionGrid w botY botX ws).flatten.length = ws * ws
      ∧ (visionGrid w botY botX ws).flatten.getD (i * ws + j) 0
          = ((visionGrid w botY botX ws).getD i []).getD j 0
      ∧ (visionGrid w botY botX ws).flatten.getD (i * ws + j) 0
          = read w (botY - (ws / 2 : Nat) + i) (botX - (ws / 2 : Nat) + j) := by
  have hrows := visionGrid_row_length w botY botX ws
  have hlen := flatten_length_uniform (visionGrid w botY botX ws) hrows
  rw [visionGrid_length] at hlen
  have hrm := flatten_getD_row_major (visionGrid w botY botX ws) i j hrows hj
    (by rw [visionGrid_length]; exact hi)
  refine ⟨hlen, hrm, ?_⟩
  rw [hrm]
  exact visionGrid_getD w botY botX ws i j hi hj

/-- Witness for C10 at `n = 2`, `window_size = 2`, entry `(1, 1)` of the
window around `(0, 0)` of `exWorld2`. -/
theorem C10_flatten_row_major_witness :
    (visionGrid exWorld2 0 0 2).flatten.length = 2 * 2
      ∧ (visionGrid exWorld2 0 0 2).flatten.getD (1 * 2 + 1) 0
          = ((visionGrid exWorld2 0 0 2).getD 1 []).getD 1 0
      ∧ (visionGrid exWorld2 0 0 2).flatten.getD (1 * 2 + 1) 0
          = read exWorld2 (0 - ((2 : Nat) / 2 : Nat) + (1 : Nat))
              (0 - ((2 : Nat) / 2 : Nat) + (1 : Nat)) :=
  C10_flatten_row_major 2 2 exWorld2 0 0 1 1 (by decide) (by decide)

/-- C2 counterexample: on the 2 × 2 world with its only reward at `(0, 0)`
and the agent standing there, the respawn draw `(0, 0)` is accepted — the
collected cell was cleared first, so it counts as empty — and the reward
respawns exactly where it was just collected.  The final world equals the
initial one and its cell `(0, 0)` holds a reward again, refuting "the
respawned reward is placed at an empty cell distinct from the cell that was
just collected". -/
theorem C2_distinct_respawn_counterexample :
    (collectAndRespawn exWorld2 (0, 0) [(0, 0)]).map
        (fun t => (t.2.1, t.2.2, t.1 (0, 0), t.1 (0, 1), t.1 (1, 0),
          t.1 (1, 1)))
      = some (1, some (0, 0), 1, 0, 0, 0) := by decide

/-- C2 amended: the respawned reward is placed at a cell that is empty after
the collected cell has been cleared; that cell may be the just-collected cell
itself. -/
theorem C2_respawn_post_clear_empty {n : Nat} (w w' : World n)
    (pos : Fin n × Fin n) (draws : List (Fin n × Fin n)) (r : Nat)
    (q : Fin n × Fin n) (hpos : w pos = 1)
    (h : collectAndRespawn w pos draws = some (w', r, some q)) :
    Function.update w pos 0 q = 0
      ∧ w' = Function.update (Function.update w pos 0) q 1 := by
  obtain ⟨-, q', hq', hempty, hupd, -⟩ := collectAndRespawn_of_eq hpos h
  obtain rfl : q' = q := by injection hq' with hq'; exact hq'.symm
  exact ⟨hempty, hupd⟩

/-- Witness for the amended C2 at `n = 2` with respawn draw `(1, 1)`. -/
theorem C2_respawn_post_clear_empty_witness :
    Function.update exWorld2 (0, 0) 0 (1, 1) = 0
      ∧ Function.update (Function.update exWorld2 (0, 0) 0) (1, 1) 1
        = Function.update (Function.update exWorld2 (0, 0) 0) (1, 1) 1 :=
  C2_respawn_post_clear_empty exWorld2
    (Function.update (Function.update exWorld2 (0, 0) 0) (1, 1) 1) (0, 0)
    [(1, 1)] 1 (1, 1) (by decide) (by rfl)

/-- C3 counterexample: the unrecognized action `7` falls through the
`if`/`elif` chain, leaving the position `(1, 1)` unchanged and continuing the
tick normally — a silent no-op, with no `InvalidAction` error anywhere in the
movement code. -/
theorem C3_invalid_action_counterexample :
    applyMove WORLD_SIZE 7 (1, 1) = (1, 1) := by decide

/-- C3 amended: any action value outside the four recognized moves leaves the
agent's position unchanged; the code raises no error, so an unrecognized
action is a silent no-op. -/
theorem C3_invalid_action_silent_noop (n : Nat) (m : Int) (p : Int × Int)
    (h0 : m ≠ 0) (h1 : m ≠ 1) (h2 : m ≠ 2) (h3 : m ≠ 3) :
    applyMove n m p = p := by
  simp [applyMove, h0, h1, h2, h3]

/-- Witness for the amended C3 at action `7` from position `(2, 3)` on the
100-cell grid. -/
theorem C3_invalid_action_silent_noop_witness :
    applyMove WORLD_SIZE 7 (2, 3) = (2, 3) :=
  C3_invalid_action_silent_noop WORLD_SIZE 7 (2, 3) (by decide) (by decide)
    (by decide) (by decide)

/-- C4 counterexample: on the 1 × 1 world whose only cell holds a reward, a
respawn search that has drawn every cell of the grid still has not completed:
the source's `while True` loop rejects forever, it never becomes the no-op
the claim describes. -/
theorem C4_respawn_fallback_counterexample :
    respawnLoop fullWorld1 [(0, 0)] = none := by decide

/-- C4 amended: the respawn search completes exactly when the draw sequence
contains an empty cell; when no empty cell exists it never completes — the
reject-and-resample loop runs forever rather than falling back to a no-op. -/
theorem C4_respawn_termination_amended {n : Nat} (w : World n)
    (draws : List (Fin n × Fin n)) :
    ((respawnLoop w draws).isSome ↔ ∃ p ∈ draws, w p = 0)
      ∧ ((∀ p, w p ≠ 0) → respawnLoop w draws = none) := by
  refine ⟨respawnLoop_isSome_iff w draws, fun hfull => ?_⟩
  rw [← Option.not_isSome_iff_eq_none, respawnLoop_isSome_iff]
  rintro ⟨p, -, hp⟩
  exact hfull p hp

/-- Witness for the amended C4 on the full 1 × 1 world with a two-draw
sequence. -/
theorem C4_respawn_termination_amended_witness :
    respawnLoop fullWorld1 [(0, 0), (0, 0)] = none :=
  (C4_respawn_termination_amended fullWorld1 [(0, 0), (0, 0)]).2 (by decide)

/-- C1: whenever a collect-and-respawn pass completes, the number of reward
cells is unchanged — when the agent's cell holds a reward it is cleared and
exactly one post-clear-empty cell is set, and when it holds no reward nothing
changes — so any completed sequence of ticks preserves the reward count that
held immediately after initialization. -/
theorem C1_reward_count_conservation (n : Nat) [NeZero n] :
    (∀ (w w' : World n) (pos : Fin n × Fin n) (draws : List (Fin n × Fin n))
        (r : Nat) (qo : Option (Fin n × Fin n)),
        collectAndRespawn w pos draws = some (w', r, qo) →
          rewardCount w' = rewardCount w)
      ∧ (∀ (w : World n) (pos : Fin n × Fin n)
          (draws : List (Fin n × Fin n)), w pos ≠ 1 →
          collectAndRespawn w pos draws = some (w, 0, none))
      ∧ (∀ (w w' : World n) (pos : Fin n × Fin n)
          (draws : List (Fin n × Fin n)) (r : Nat)
          (qo : Option (Fin n × Fin n)), w pos = 1 →
          collectAndRespawn w pos draws = some (w', r, qo) →
          ∃ q, Function.update w pos 0 q = 0
            ∧ w' = Function.update (Function.update w pos 0) q 1)
      ∧ (∀ (policy : List Nat → Nat → Int) (ws : Nat) (w : World n)
          (botX botY : Int) (ds : List (List (Fin n × Fin n)))
          (res : TickResult n),
          runTicks policy ws w botX botY ds = some res →
            rewardCount res.world = rewardCount w) := by
  refine ⟨fun w w' pos draws r qo h => collectAndRespawn_conserves h,
    fun w pos draws h => collectAndRespawn_of_ne w pos draws h,
    fun w w' pos draws r qo hpos h => ?_,
    fun policy ws w botX botY ds res h => runTicks_conserves h⟩
  obtain ⟨-, q, -, hempty, hupd, -⟩ := collectAndRespawn_of_eq hpos h
  exact ⟨q, hempty, hupd⟩

/-- Witness for C1 at `n = 2`: collecting the reward at `(0, 0)` and
respawning it at `(1, 1)` preserves the reward count. -/
theorem C1_reward_count_conservation_witness :
    rewardCount (Function.update (Function.update exWorld2 (0, 0) 0) (1, 1) 1)
      = rewardCount exWorld2 :=
  (C1_reward_count_conservation 2).1 exWorld2
    (Function.update (Function.update exWorld2 (0, 0) 0) (1, 1) 1) (0, 0)
    [(1, 1)] 1 (some (1, 1)) (by rfl)

/-- C5: in every completed tick, the observation handed to the policy is the
flattened vision window of the pre-move, pre-collection world at the pre-move
position; the reward signal is the reward indicator of the pre-move position;
the policy is queried with exactly that observation and reward; the new
position is the move applied to the pre-move position; and the new world is
the collect-and-respawn result at the pre-move position — the reward is never
resolved at the post-move position. -/
theorem C5_tick_ordering {n : Nat} [NeZero n] (policy : List Nat → Nat → Int)
    (ws : Nat) (w : World n) (botX botY : Int)
    (draws : List (Fin n × Fin n)) (res : TickResult n)
    (h : tick policy ws w botX botY draws = some res) :
    res.visionFlat = (visionGrid w botY botX ws).flatten
      ∧ res.reward = (if w (toIdx n botY, toIdx n botX) = 1 then 1 else 0)
      ∧ res.movement = policy ((visionGrid w botY botX ws).flatten) res.reward
      ∧ (res.botX, res.botY) = applyMove n res.movement (botX, botY)
      ∧ (collectAndRespawn w (toIdx n botY, toIdx n botX) draws).map
          (fun t => t.1) = some res.world
      ∧ (collectAndRespawn w (toIdx n botY, toIdx n botX) draws).map
          (fun t => t.2.1) = some res.reward := by
  unfold tick at h
  cases hc : collectAndRespawn w (toIdx n botY, toIdx n botX) draws with
  | none => rw [hc] at h; simp at h
  | some out =>
      obtain ⟨w', r, qo⟩ := out
      rw [hc] at h
      simp only [Option.some.injEq] at h
      subst h
      exact ⟨rfl, collectAndRespawn_reward hc, rfl, rfl, rfl, rfl⟩

/-- Witness for C5 at `n = 2`: the always-RIGHT policy on `exWorld2` with the
agent on the reward cell `(0, 0)` and respawn draw `(1, 1)`. -/
theorem C5_tick_ordering_witness :
    tickWitnessRes2.visionFlat = (visionGrid exWorld2 0 0 1).flatten
      ∧ tickWitnessRes2.reward
          = (if exWorld2 (toIdx 2 0, toIdx 2 0) = 1 then 1 else 0)
      ∧ tickWitnessRes2.movement
          = (fun (_ : List Nat) (_ : Nat) => (3 : Int))
              ((visionGrid exWorld2 0 0 1).flatten) tickWitnessRes2.reward
      ∧ (tickWitnessRes2.botX, tickWitnessRes2.botY)
          = applyMove 2 tickWitnessRes2.movement (0, 0)
      ∧ (collectAndRespawn exWorld2 (toIdx 2 0, toIdx 2 0) [(1, 1)]).map
          (fun t => t.1) = some tickWitnessRes2.world
      ∧ (collectAndRespawn exWorld2 (toIdx 2 0, toIdx 2 0) [(1, 1)]).map
          (fun t => t.2.1) = some tickWitnessRes2.reward :=
  C5_tick_ordering (fun _ _ => 3) 1 exWorld2 0 0 [(1, 1)] tickWitnessRes2
    (by rfl)

end Hebbian
